import Mathlib

/-!
Verification development for the generic-substitution engine
(`lib/AST/SubstitutionMap.cpp`): a substitution map packages replacement
types and protocol conformances for specializing generic types.

The embedding translates the data model and the operations of the source
file.  External collaborators that the source file consumes but does not
implement (the global conformance oracle, the `Type::subst` primitive, the
evaluator's in-flight request tracker, `transformRec`) are passed in as
explicit parameters (`Env`, `InFlightSubstitution`), so all theorems are
quantified over their behaviour.  Types are modelled by their canonical
representatives, so `getCanonicalType` is the identity.  The C++ null
`Type` is modelled by the inert constructor `Ty.nullTy`.  Debug-mode
assertions are modelled by returning `none` (a structural fault).
-/

namespace Swift

/-- Kinds of archetypes (`PrimaryArchetypeType`, `PackArchetypeType`,
`OpaqueTypeArchetypeType`, and the remaining kinds, which the substitution
map never resolves). -/
inductive ArchetypeKind where
  | primaryKind
  | packKind
  | opaqueKind
  | openedKind
  | elementKind
deriving DecidableEq

/-- Shallow model of the canonical type representation: the constructors
record exactly the discriminators the substitution-map code inspects
(`isTypeParameter`, `is<PackType>`, `is<ArchetypeType>`, `getSuperclass`,
`hasError`, `isExistentialType`, `isTypeVariableOrMember`,
`is<UnresolvedType>`, `is<UnboundGenericType>`, `hasTypeParameter`). -/
inductive Ty where
  | nullTy
  | genericParam (depth index : Nat) (isPack : Bool)
  | dependentMember (base : Ty) (assocId : Nat)
  | archetype (kind : ArchetypeKind) (isRoot : Bool) (interface : Ty)
      (superclass : Option Ty)
  | pack (elems : List Ty)
  | packExpansion (pattern : Ty)
  | nominal (declId : Nat) (args : List Ty)
  | existential (declId : Nat)
  | errorType
  | typeVariable (id : Nat)
  | unresolved
  | unboundGeneric (declId : Nat)

mutual
/-- Structural (canonical) equality test on types (`isEqual` on canonical
types). -/
def Ty.beq : Ty → Ty → Bool
  | .nullTy, .nullTy => true
  | .genericParam d i p, .genericParam d' i' p' => d == d' && i == i' && p == p'
  | .dependentMember b a, .dependentMember b' a' => Ty.beq b b' && a == a'
  | .archetype k r iface sup, .archetype k' r' iface' sup' =>
      k == k' && r == r' && Ty.beq iface iface' && Ty.beqOpt sup sup'
  | .pack es, .pack es' => Ty.beqList es es'
  | .packExpansion p, .packExpansion p' => Ty.beq p p'
  | .nominal n args, .nominal n' args' => n == n' && Ty.beqList args args'
  | .existential n, .existential n' => n == n'
  | .errorType, .errorType => true
  | .typeVariable n, .typeVariable n' => n == n'
  | .unresolved, .unresolved => true
  | .unboundGeneric n, .unboundGeneric n' => n == n'
  | _, _ => false

/-- List version of `Ty.beq`. -/
def Ty.beqList : List Ty → List Ty → Bool
  | [], [] => true
  | t :: ts, t' :: ts' => Ty.beq t t' && Ty.beqList ts ts'
  | _, _ => false

/-- Option version of `Ty.beq`. -/
def Ty.beqOpt : Option Ty → Option Ty → Bool
  | none, none => true
  | some t, some t' => Ty.beq t t'
  | _, _ => false
end

mutual
def Ty.eq_of_beq : ∀ (a b : Ty), Ty.beq a b = true → a = b
  | .nullTy, b, h => by cases b <;> simp_all [Ty.beq]
  | .genericParam d i p, b, h => by cases b <;> simp_all [Ty.beq]
  | .dependentMember base n, b, h => by
      cases b <;> simp_all [Ty.beq]
      exact Ty.eq_of_beq base _ h.1
  | .archetype k r iface sup, b, h => by
      cases b <;> simp_all [Ty.beq]
      obtain ⟨⟨⟨hk, hr⟩, hi⟩, hs⟩ := h
      exact ⟨Ty.eq_of_beq iface _ hi, Ty.eqOpt_of_beqOpt sup _ hs⟩
  | .pack es, b, h => by
      cases b <;> simp_all [Ty.beq]
      exact Ty.eqList_of_beqList es _ h
  | .packExpansion p, b, h => by
      cases b <;> simp_all [Ty.beq]
      exact Ty.eq_of_beq p _ h
  | .nominal n args, b, h => by
      cases b <;> simp_all [Ty.beq]
      exact Ty.eqList_of_beqList args _ h.2
  | .existential n, b, h => by cases b <;> simp_all [Ty.beq]
  | .errorType, b, h => by cases b <;> simp_all [Ty.beq]
  | .typeVariable n, b, h => by cases b <;> simp_all [Ty.beq]
  | .unresolved, b, h => by cases b <;> simp_all [Ty.beq]
  | .unboundGeneric n, b, h => by cases b <;> simp_all [Ty.beq]

def Ty.eqList_of_beqList : ∀ (as bs : List Ty), Ty.beqList as bs = true → as = bs
  | [], bs, h => by cases bs <;> simp_all [Ty.beqList]
  | t :: ts, bs, h => by
      cases bs <;> simp_all [Ty.beqList]
      exact ⟨Ty.eq_of_beq t _ h.1, Ty.eqList_of_beqList ts _ h.2⟩

def Ty.eqOpt_of_beqOpt : ∀ (a b : Option Ty), Ty.beqOpt a b = true → a = b
  | none, b, h => by cases b <;> simp_all [Ty.beqOpt]
  | some t, b, h => by
      cases b <;> simp_all [Ty.beqOpt]
      exact Ty.eq_of_beq t _ h
end

mutual
def Ty.beq_refl : ∀ (a : Ty), Ty.beq a a = true
  | .nullTy => rfl
  | .genericParam d i p => by simp [Ty.beq]
  | .dependentMember base n => by simp [Ty.beq, Ty.beq_refl base]
  | .archetype k r iface sup => by
      simp [Ty.beq, Ty.beq_refl iface, Ty.beqOpt_refl sup]
  | .pack es => by simp [Ty.beq, Ty.beqList_refl es]
  | .packExpansion p => by simp [Ty.beq, Ty.beq_refl p]
  | .nominal n args => by simp [Ty.beq, Ty.beqList_refl args]
  | .existential n => by simp [Ty.beq]
  | .errorType => rfl
  | .typeVariable n => by simp [Ty.beq]
  | .unresolved => rfl
  | .unboundGeneric n => by simp [Ty.beq]

def Ty.beqList_refl : ∀ (as : List Ty), Ty.beqList as as = true
  | [] => rfl
  | t :: ts => by simp [Ty.beqList, Ty.beq_refl t, Ty.beqList_refl ts]

def Ty.beqOpt_refl : ∀ (a : Option Ty), Ty.beqOpt a a = true
  | none => rfl
  | some t => by simp [Ty.beqOpt, Ty.beq_refl t]
end

instance : DecidableEq Ty := fun a b =>
  if h : Ty.beq a b = true then isTrue (Ty.eq_of_beq a b h)
  else isFalse (fun he => h (he ▸ Ty.beq_refl a))

/-- A type parameter is a generic parameter or a dependent member type
rooted in one (`TypeBase::isTypeParameter`). -/
def Ty.isTypeParameter : Ty → Bool
  | .genericParam _ _ _ => true
  | .dependentMember base _ => base.isTypeParameter
  | _ => false

/-- True for a type variable or a dependent member rooted in one
(`TypeBase::isTypeVariableOrMember`). -/
def Ty.isTypeVariableOrMember : Ty → Bool
  | .typeVariable _ => true
  | .dependentMember base _ => base.isTypeVariableOrMember
  | _ => false

/-- Test for `is<PackType>`. -/
def Ty.isPackType : Ty → Bool
  | .pack _ => true
  | _ => false

/-- Test for `is<ArchetypeType>`. -/
def Ty.isArchetype : Ty → Bool
  | .archetype _ _ _ _ => true
  | _ => false

/-- Superclass bound of an archetype (`ArchetypeType::getSuperclass`,
a null type on any other input). -/
def Ty.archetypeSuperclass : Ty → Option Ty
  | .archetype _ _ _ sup => sup
  | _ => none

/-- Test for `isExistentialType`. -/
def Ty.isExistential : Ty → Bool
  | .existential _ => true
  | _ => false

/-- Test for `is<UnresolvedType>`. -/
def Ty.isUnresolvedType : Ty → Bool
  | .unresolved => true
  | _ => false

/-- Test for `is<UnboundGenericType>`. -/
def Ty.isUnboundGenericType : Ty → Bool
  | .unboundGeneric _ => true
  | _ => false

mutual
/-- Recursive property: the type contains an error type (`hasError`). -/
def Ty.hasError : Ty → Bool
  | .errorType => true
  | .dependentMember base _ => base.hasError
  | .pack es => Ty.hasErrorList es
  | .packExpansion p => p.hasError
  | .nominal _ args => Ty.hasErrorList args
  | _ => false

/-- List version of `Ty.hasError`. -/
def Ty.hasErrorList : List Ty → Bool
  | [] => false
  | t :: ts => t.hasError || Ty.hasErrorList ts
end

mutual
/-- Recursive property: the type mentions a type parameter
(`hasTypeParameter`). -/
def Ty.hasTypeParameter : Ty → Bool
  | .genericParam _ _ _ => true
  | .dependentMember _ _ => true
  | .pack es => Ty.hasTypeParameterList es
  | .packExpansion p => p.hasTypeParameter
  | .nominal _ args => Ty.hasTypeParameterList args
  | _ => false

/-- List version of `Ty.hasTypeParameter`. -/
def Ty.hasTypeParameterList : List Ty → Bool
  | [] => false
  | t :: ts => t.hasTypeParameter || Ty.hasTypeParameterList ts
end

/-- A protocol declaration: identified by a declaration id, plus whether it
is one of the invertible protocols (`getInvertibleProtocolKind`). -/
structure ProtocolDecl where
  declId : Nat
  invertible : Bool
deriving DecidableEq

/-- A generic parameter key: `(depth, index, isParameterPack)`. -/
structure GenericParam where
  depth : Nat
  index : Nat
  isParameterPack : Bool
deriving DecidableEq

/-- The `GenericTypeParamType` corresponding to a generic parameter. -/
def GenericParam.asType (gp : GenericParam) : Ty :=
  .genericParam gp.depth gp.index gp.isParameterPack

/-- Requirement kinds; only conformance requirements matter here. -/
inductive RequirementKind where
  | conformance
  | superclassReq
  | sameType
  | layout
  | sameShape
deriving DecidableEq

/-- A requirement of a generic signature.  For a conformance requirement
the dependent type is `firstType` and the protocol is `protocolDecl`
(`Requirement::getFirstType` / `getProtocolDecl`). -/
structure Requirement where
  kind : RequirementKind
  firstType : Ty
  protocolDecl : ProtocolDecl
deriving DecidableEq

/-- Test for `RequirementKind::Conformance`. -/
def Requirement.isConformanceReq (r : Requirement) : Bool :=
  match r.kind with
  | .conformance => true
  | _ => false

/-- A generic signature: ordered parameters, ordered requirements, and its
external queries.  `paramIsCanonical` records, positionally, the flag that
`forEachParam` reports for each parameter occurrence; `requiresProtocolFn`
and `conformancePathFn` are the signature's external requirement query and
conformance-path producer. -/
structure GenericSignature where
  genericParams : List GenericParam
  paramIsCanonical : List Bool
  requirements : List Requirement
  requiresProtocolFn : Ty → ProtocolDecl → Bool
  conformancePathFn : Ty → ProtocolDecl → List (Ty × ProtocolDecl)

/-- Number of conformance requirements of a signature
(`getNumConformanceRequirements`). -/
def GenericSignature.numConformanceRequirements (sig : GenericSignature) : Nat :=
  (sig.requirements.filter Requirement.isConformanceReq).length

/-- The subsequence of conformance requirements, in declared order. -/
def conformanceRequirements (sig : GenericSignature) : List Requirement :=
  sig.requirements.filter Requirement.isConformanceReq

mutual
/-- A `ProtocolConformanceRef`: invalid, abstract, concrete, or pack. -/
inductive ConformanceRef where
  | invalid
  | abstract (proto : ProtocolDecl)
  | concrete (conf : ConcreteConformance)
  | pack (conf : PackConformance)

/-- A concrete protocol conformance witness.  The fields flatten the
projections the source file performs on it: its conforming type
(`getType`), its protocol, whether it is a `SelfProtocolConformance`, the
identity of its root normal conformance (`getRootNormalConformance`) and
whether that root has computed its associated conformances, the identity of
its declaration context (for `mapTypeIntoContext`), and its
associated-conformance table (`getAssociatedConformance`). -/
inductive ConcreteConformance where
  | mk (type : Ty) (protoId : Nat) (isSelfConformance : Bool)
      (rootNormalId : Nat) (rootHasComputedAssociatedConformances : Bool)
      (declContextId : Nat)
      (assocTable : List ((Ty × ProtocolDecl) × ConformanceRef))

/-- A pack conformance: its pattern conformances and its
associated-conformance table. -/
inductive PackConformance where
  | mk (patternConformances : List ConformanceRef)
      (assocTable : List ((Ty × ProtocolDecl) × PackConformance))
end

/-- Test for the invalid conformance reference. -/
def ConformanceRef.isInvalid : ConformanceRef → Bool
  | .invalid => true
  | _ => false

/-- Test for an abstract conformance reference. -/
def ConformanceRef.isAbstract : ConformanceRef → Bool
  | .abstract _ => true
  | _ => false

/-- Test for a concrete conformance reference. -/
def ConformanceRef.isConcrete : ConformanceRef → Bool
  | .concrete _ => true
  | _ => false

/-- Conforming type of a concrete conformance (`getType`). -/
def ConcreteConformance.type : ConcreteConformance → Ty
  | .mk t _ _ _ _ _ _ => t

/-- Whether the witness is a `SelfProtocolConformance`. -/
def ConcreteConformance.isSelfConformance : ConcreteConformance → Bool
  | .mk _ _ s _ _ _ _ => s

/-- Identity of the root normal conformance. -/
def ConcreteConformance.rootNormalId : ConcreteConformance → Nat
  | .mk _ _ _ r _ _ _ => r

/-- Whether the root normal conformance has computed its
associated-conformance table (`hasComputedAssociatedConformances`). -/
def ConcreteConformance.rootHasComputedAssociatedConformances :
    ConcreteConformance → Bool
  | .mk _ _ _ _ h _ _ => h

/-- Identity of the witness's declaration context. -/
def ConcreteConformance.declContextId : ConcreteConformance → Nat
  | .mk _ _ _ _ _ d _ => d

/-- Associated-conformance table of a concrete conformance. -/
def ConcreteConformance.assocTable :
    ConcreteConformance → List ((Ty × ProtocolDecl) × ConformanceRef)
  | .mk _ _ _ _ _ _ tbl => tbl

/-- Modelled from the spec: `ProtocolConformance::getAssociatedConformance`
(external) resolves the associated conformance for a requirement step from
the witness's own requirement signature; an entry missing from the table is
an invalid result. -/
def ConcreteConformance.getAssociatedConformance (c : ConcreteConformance)
    (t : Ty) (p : ProtocolDecl) : ConformanceRef :=
  match c.assocTable.find? (fun e => decide (e.1 = (t, p))) with
  | some e => e.2
  | none => .invalid

/-- Pattern conformances of a pack conformance
(`getPatternConformances`). -/
def PackConformance.patternConformances : PackConformance → List ConformanceRef
  | .mk pats _ => pats

/-- Associated-conformance table of a pack conformance. -/
def PackConformance.assocTable :
    PackConformance → List ((Ty × ProtocolDecl) × PackConformance)
  | .mk _ tbl => tbl

/-- Modelled from the spec: `PackConformance::getAssociatedConformance`
(external) looks up the associated conformance for a requirement step
within the pack's own conformance table; `none` models a pack that lacks
the entry, which the caller propagates as invalid. -/
def PackConformance.getAssociatedConformance (c : PackConformance)
    (t : Ty) (p : ProtocolDecl) : Option PackConformance :=
  (c.assocTable.find? (fun e => decide (e.1 = (t, p)))).map (fun e => e.2)

/-- A substitution map: a generic signature (absent for the empty map)
together with the two stored parallel sequences.  In the source the
storage is interned; interning only affects pointer identity, so the
value-level model is the triple itself. -/
structure SubstitutionMap where
  genericSig : Option GenericSignature
  replacementTypes : List Ty
  conformances : List ConformanceRef

/-- The empty substitution map (null storage). -/
def SubstitutionMap.emptyMap : SubstitutionMap :=
  ⟨none, [], []⟩

/-- True iff no signature is attached (`SubstitutionMap::empty`). -/
def SubstitutionMap.empty (m : SubstitutionMap) : Bool :=
  m.genericSig.isNone

/-- Stored conformances; an empty map yields the empty view
(`SubstitutionMap::getConformances`). -/
def SubstitutionMap.getConformances (m : SubstitutionMap) : List ConformanceRef :=
  match m.genericSig with
  | none => []
  | some _ => m.conformances

/-- Stored replacement types; an empty map yields the empty view
(`SubstitutionMap::getReplacementTypes`). -/
def SubstitutionMap.getReplacementTypes (m : SubstitutionMap) : List Ty :=
  match m.genericSig with
  | none => []
  | some _ => m.replacementTypes

/-- The asserting constructor (`Storage::Storage` via
`SubstitutionMap::SubstitutionMap`): construction checks that the two
sequences are aligned with the signature's parameter count and
conformance-requirement count; a violation is a structural fault,
modelled as `none`. -/
def SubstitutionMap.make (sig : GenericSignature) (replacementTypes : List Ty)
    (conformances : List ConformanceRef) : Option SubstitutionMap :=
  if replacementTypes.length = sig.genericParams.length ∧
      conformances.length = sig.numConformanceRequirements then
    some ⟨some sig, replacementTypes, conformances⟩
  else
    none

/-- The external collaborators consumed by the source file, passed
explicitly: the global conformance oracle (`swift::lookupConformance`),
the missing-conformance constructor
(`ProtocolConformanceRef::forMissingOrInvalid`), the evaluator's in-flight
request tracker keyed by the root normal conformance
(`hasActiveRequest(ResolveTypeWitnessesRequest{normal})`), the type
substitution primitive `Type::subst(SubstitutionMap)`, the declaration
context remap `DeclContext::mapTypeIntoContext`, and the type transform
`transformRec` (whose callback may answer with a replacement, with
`Ty.nullTy` to abort the whole transform, or `none` to keep descending). -/
structure Env where
  globalLookupConformance : Ty → ProtocolDecl → ConformanceRef
  forMissingOrInvalid : Ty → ProtocolDecl → ConformanceRef
  hasActiveResolveTypeWitnesses : Nat → Bool
  substTypeViaMap : SubstitutionMap → Ty → Ty
  mapTypeIntoContext : Nat → Ty → Ty
  transformRec : (Ty → Option Ty) → Ty → Ty

/-- An in-flight substitution capability: the composite behaviour of
`Type::subst(IFS)` on a type, the conformance-resolution operation
`IFS.lookupConformance(origType, substType, proto, level)`, the
opaque-archetype option, and the two external conformance-substitution
operations used by `SubstitutionMap::subst`
(`ProtocolConformance::subst(IFS)` and
`ProtocolConformanceRef::subst(substType, IFS)`), plus the primitive
`Type::subst(map, IFS.getOptions())`. -/
structure InFlightSubstitution where
  substTy : Ty → Ty
  lookupConf : Ty → Ty → ProtocolDecl → Nat → ConformanceRef
  shouldSubstituteOpaqueArchetypes : Bool
  substConcrete : ConcreteConformance → ConcreteConformance
  substConformance : ConformanceRef → Ty → ConformanceRef
  substTypeWithOptions : SubstitutionMap → Ty → Ty

/-- The pack-ness assertion checked for each computed replacement in
`SubstitutionMap::get`: the replacement is null, or contains an error, or
is a pack type exactly when the parameter is a parameter pack. -/
def packCompatible (gp : GenericParam) (replacement : Ty) : Bool :=
  replacement = Ty.nullTy || replacement.hasError ||
    (gp.isParameterPack == replacement.isPackType)

/-- The shared construction algorithm `SubstitutionMap::get(genericSig,
IFS)`: a null signature yields the empty map; otherwise each generic
parameter is substituted through the capability (asserting the pack-ness
invariant), each conformance requirement's dependent type is substituted
and resolved through the capability, and the map is built by the asserting
constructor. -/
def SubstitutionMap.get (genericSig : Option GenericSignature)
    (IFS : InFlightSubstitution) : Option SubstitutionMap :=
  match genericSig with
  | none => some SubstitutionMap.emptyMap
  | some sig =>
    let replacementTypes :=
      sig.genericParams.map (fun gp => IFS.substTy gp.asType)
    if (sig.genericParams.zip replacementTypes).all
        (fun pr => packCompatible pr.1 pr.2) then
      let conformances := sig.requirements.filterMap (fun req =>
        if req.isConformanceReq then
          let depTy := req.firstType
          let replacement := IFS.substTy depTy
          some (IFS.lookupConf depTy replacement req.protocolDecl 0)
        else
          none)
      SubstitutionMap.make sig replacementTypes conformances
    else
      none

/-- Modelled from the spec: `GenericParamKey::findIndexIn` (external)
finds the parameter's position in the signature's parameter list by its
`(depth, index)` key, with `none` when the key is absent. -/
def findIndexIn (params : List GenericParam) (depth index : Nat) : Option Nat :=
  params.findIdx? (fun gp => decide (gp.depth = depth ∧ gp.index = index))

/-- Lookup of a replacement type (`SubstitutionMap::lookupSubstitution`).
An empty map has no replacements.  An archetype is resolvable only when it
is a root archetype of primary or pack kind, in which case it is rewritten
to its underlying canonical generic-parameter type; the parameter is then
located by its `(depth, index)` key, and the corresponding entry of the
replacement types is returned.  Inputs outside the `CanSubstitutableType`
domain (neither an archetype nor a generic parameter, or an archetype
whose interface type is not a generic parameter) violate the function's
`cast` preconditions and are mapped to `none`. -/
def SubstitutionMap.lookupSubstitution (m : SubstitutionMap) (type : Ty) :
    Option Ty :=
  match m.genericSig with
  | none => none
  | some sig =>
    let rewritten : Option Ty :=
      match type with
      | .archetype kind isRoot interface _ =>
        if !isRoot then
          none
        else if kind ≠ .primaryKind ∧ kind ≠ .packKind then
          none
        else
          match interface with
          | .genericParam d i pk => some (.genericParam d i pk)
          | _ => none
      | t => some t
    match rewritten with
    | none => none
    | some t =>
      match t with
      | .genericParam depth index _ =>
        match findIndexIn sig.genericParams depth index with
        | none => none
        | some j => some (m.getReplacementTypes.getD j .nullTy)
      | _ => none

/-- The fast-path scan of `lookupConformance`: linearly walk the
signature's requirements counting conformance requirements, and return
the ordinal position of the first conformance requirement whose dependent
type and protocol match. -/
def signatureConformanceIndexAux (t : Ty) (p : ProtocolDecl) :
    List Requirement → Nat → Option Nat
  | [], _ => none
  | r :: rest, idx =>
    if r.isConformanceReq then
      if r.firstType = t ∧ r.protocolDecl = p then
        some idx
      else
        signatureConformanceIndexAux t p rest (idx + 1)
    else
      signatureConformanceIndexAux t p rest idx

/-- The local `getSignatureConformance` closure of `lookupConformance`:
when the signature directly states the conformance requirement, return
the conformance stored at its ordinal position. -/
def getSignatureConformance (m : SubstitutionMap) (sig : GenericSignature)
    (t : Ty) (p : ProtocolDecl) : Option ConformanceRef :=
  (signatureConformanceIndexAux t p sig.requirements 0).map
    (fun i => m.getConformances.getD i .invalid)

/-- The conformance-path walk of `lookupConformance`.  The loop variable
starts invalid; the invalid state marks the first step, which is resolved
by the fast-path scan.  On later steps the walk branches on the current
conformance's variant: abstract conformances terminate the walk (usually
abstractly, but a sufficiently concrete substituted type delegates to the
global oracle), pack and concrete conformances step through their
associated-conformance tables, and a concrete witness that has not
computed its associated conformances while its own resolution is already
in flight fails with invalid (the cycle-avoidance safety valve). -/
def walkPath (env : Env) (m : SubstitutionMap) (sig : GenericSignature)
    (type : Ty) (proto : ProtocolDecl) :
    ConformanceRef → List (Ty × ProtocolDecl) → ConformanceRef
  | conf, [] => conf
  | conf, step :: rest =>
    match conf with
    | .invalid =>
      match getSignatureConformance m sig step.1 step.2 with
      | some initialConformance => walkPath env m sig type proto initialConformance rest
      | none => .invalid
    | .abstract _ =>
      let substType := env.substTypeViaMap m type
      if substType.hasError then
        .abstract proto
      else if (!substType.isArchetype || substType.archetypeSuperclass.isSome)
          && !substType.isTypeParameter && !substType.isExistential then
        env.globalLookupConformance substType proto
      else
        .abstract proto
    | .pack packConf =>
      match packConf.getAssociatedConformance step.1 step.2 with
      | some next => walkPath env m sig type proto (.pack next) rest
      | none => .invalid
    | .concrete concreteConf =>
      if !concreteConf.rootHasComputedAssociatedConformances &&
          env.hasActiveResolveTypeWitnesses concreteConf.rootNormalId then
        .invalid
      else
        match concreteConf.getAssociatedConformance step.1 step.2 with
        | .invalid => .invalid
        | next => walkPath env m sig type proto next rest

/-- The archetype rewrite at the head of `lookupConformance`: a non-opaque
archetype is rewritten to its (canonical) interface type; everything else
is unchanged. -/
def lookupConformanceRewrite (type0 : Ty) : Ty :=
  match type0 with
  | .archetype kind isRoot interface sup =>
    match kind with
    | .opaqueKind => Ty.archetype kind isRoot interface sup
    | _ => interface
  | t => t

/-- Conformance lookup (`SubstitutionMap::lookupConformance`): empty maps
yield invalid; a non-opaque archetype is rewritten to its interface type;
non-type-parameters yield invalid; then the fast-path scan, the
not-required query, the invertible-protocol shortcut, and finally the
conformance-path walk. -/
def SubstitutionMap.lookupConformance (env : Env) (m : SubstitutionMap)
    (type0 : Ty) (proto : ProtocolDecl) : ConformanceRef :=
  match m.genericSig with
  | none => .invalid
  | some sig =>
    let type := lookupConformanceRewrite type0
    if !type.isTypeParameter then
      .invalid
    else
      match getSignatureConformance m sig type proto with
      | some directConformance => directConformance
      | none =>
        if !sig.requiresProtocolFn type proto then
          env.forMissingOrInvalid (env.substTypeViaMap m type) proto
        else if proto.invertible then
          let substType := env.substTypeViaMap m type
          if !substType.isTypeParameter then
            env.globalLookupConformance substType proto
          else
            .abstract proto
        else
          walkPath env m sig type proto .invalid (sig.conformancePathFn type proto)

/-- One conformance step of `SubstitutionMap::subst`: a concrete
conformance under a capability that does not substitute opaque archetypes
takes the fast path that substitutes the witness directly; otherwise the
requirement's dependent type is substituted through the original map and
the stored conformance re-substitutes itself against that form. -/
def substOneConformance (m : SubstitutionMap) (IFS : InFlightSubstitution)
    (req : Requirement) (conformance : ConformanceRef) : ConformanceRef :=
  match conformance, IFS.shouldSubstituteOpaqueArchetypes with
  | .concrete concreteConf, false =>
    ConformanceRef.concrete (IFS.substConcrete concreteConf)
  | _, _ =>
    let substType := IFS.substTypeWithOptions m req.firstType
    IFS.substConformance conformance substType

/-- The conformance loop of `SubstitutionMap::subst`: walk the
requirements, consuming one stored conformance per conformance
requirement.  Exhausting the stored conformances early, or leaving some
unconsumed, is a structural fault. -/
def substConformancesLoop (m : SubstitutionMap) (IFS : InFlightSubstitution) :
    List Requirement → List ConformanceRef → Option (List ConformanceRef)
  | [], oldConformances =>
    if oldConformances.isEmpty then some [] else none
  | req :: rest, oldConformances =>
    if req.isConformanceReq then
      match oldConformances with
      | [] => none
      | conformance :: remaining =>
        (substConformancesLoop m IFS rest remaining).map
          (fun tail => substOneConformance m IFS req conformance :: tail)
    else
      substConformancesLoop m IFS rest oldConformances

/-- Re-substitution of an existing map
(`SubstitutionMap::subst(InFlightSubstitution&)`): empty in, empty out;
each stored replacement type is substituted through the capability
(asserting pack-ness preservation), the conformances are rebuilt by the
conformance loop, and the result is built by the asserting
constructor. -/
def SubstitutionMap.subst (m : SubstitutionMap) (IFS : InFlightSubstitution) :
    Option SubstitutionMap :=
  match m.genericSig with
  | none => some SubstitutionMap.emptyMap
  | some sig =>
    let newSubs := m.getReplacementTypes.map IFS.substTy
    if (m.getReplacementTypes.zip newSubs).all
        (fun pr => pr.1.isPackType == pr.2.isPackType) then
      match substConformancesLoop m IFS sig.requirements m.getConformances with
      | some newConformances => SubstitutionMap.make sig newSubs newConformances
      | none => none
    else
      none

/-- The two boundary styles of `combineSubstitutionMaps`. -/
inductive CombineSubstitutionMaps where
  | atDepth
  | atIndex
deriving DecidableEq

/-- The `replaceGenericParameter` closure of `combineSubstitutionMaps`:
for a generic parameter before the boundary answer the null type (handled
by the caller as "use the first map"); at or after the boundary answer the
parameter re-based into the second map's numbering; for any other type
answer `none` (`std::nullopt`). -/
def replaceGenericParameter (how : CombineSubstitutionMaps)
    (firstDepthOrIndex secondDepthOrIndex : Nat) (type : Ty) : Option Ty :=
  match type with
  | .genericParam depth index isPack =>
    match how with
    | .atDepth =>
      if depth < firstDepthOrIndex then
        some .nullTy
      else
        some (.genericParam (depth + secondDepthOrIndex - firstDepthOrIndex)
          index isPack)
    | .atIndex =>
      if index < firstDepthOrIndex then
        some .nullTy
      else
        some (.genericParam depth
          (index + secondDepthOrIndex - firstDepthOrIndex) isPack)
  | _ => none

/-- The type query passed by `combineSubstitutionMaps` to the map factory:
a re-based parameter substitutes through the second map, everything else
through the first map. -/
def combineTypeQuery (env : Env) (firstSubMap secondSubMap : SubstitutionMap)
    (how : CombineSubstitutionMaps)
    (firstDepthOrIndex secondDepthOrIndex : Nat) (type : Ty) : Ty :=
  match replaceGenericParameter how firstDepthOrIndex secondDepthOrIndex type with
  | some replacement =>
    if replacement ≠ .nullTy then
      env.substTypeViaMap secondSubMap replacement
    else
      env.substTypeViaMap firstSubMap type
  | none => env.substTypeViaMap firstSubMap type

/-- The conformance query passed by `combineSubstitutionMaps` to the map
factory: a dependent type that re-bases (via `transformRec`) asks the
second map; otherwise the first map is tried, and if it has no evidence
and the substituted type is no longer a parameter, the global oracle is
the documented best-effort fallback. -/
def combineConformanceQuery (env : Env)
    (firstSubMap secondSubMap : SubstitutionMap)
    (how : CombineSubstitutionMaps)
    (firstDepthOrIndex secondDepthOrIndex : Nat)
    (type substType : Ty) (proto : ProtocolDecl) : ConformanceRef :=
  let replacement := env.transformRec
    (replaceGenericParameter how firstDepthOrIndex secondDepthOrIndex) type
  if replacement ≠ .nullTy then
    SubstitutionMap.lookupConformance env secondSubMap replacement proto
  else
    match SubstitutionMap.lookupConformance env firstSubMap type proto with
    | .invalid =>
      if substType.isTypeParameter then
        .abstract proto
      else
        env.globalLookupConformance substType proto
    | conformance => conformance

/-- Generalized two-map combination
(`SubstitutionMap::combineSubstitutionMaps`): build a fresh map over the
target signature from the two routing queries.  Only the two queries of
the in-flight capability are exercised by the factory; the remaining
fields are inert placeholders. -/
def SubstitutionMap.combineSubstitutionMaps (env : Env)
    (firstSubMap secondSubMap : SubstitutionMap)
    (how : CombineSubstitutionMaps)
    (firstDepthOrIndex secondDepthOrIndex : Nat)
    (genericSig : GenericSignature) : Option SubstitutionMap :=
  SubstitutionMap.get (some genericSig)
    ⟨fun type => combineTypeQuery env firstSubMap secondSubMap how
        firstDepthOrIndex secondDepthOrIndex type,
      fun type substType proto _ => combineConformanceQuery env firstSubMap
        secondSubMap how firstDepthOrIndex secondDepthOrIndex type substType proto,
      false,
      id,
      fun conformance _ => conformance,
      fun _ type => type⟩

/-- The context remap performed by `verify` before comparing the witness's
underlying type with the substituted type: when the witness type still
mentions type parameters but the substituted type does not, map it into
the witness's declaration context. -/
def remapConformanceTy (env : Env) (conformance : ConcreteConformance)
    (substType : Ty) : Ty :=
  if conformance.type.hasTypeParameter && !substType.hasTypeParameter then
    env.mapTypeIntoContext conformance.declContextId conformance.type
  else
    conformance.type

/-- The body of one `verify` iteration, for one conformance requirement
and the conformance stored at its position: `true` means no assertion
fires.  Substituted dependent types that are not fully concrete, and
invalid stored conformances, are skipped; a non-concrete conformance at a
fully concrete position is a violation; unbound generic substituted types
skip the type comparison; otherwise the witness's (possibly remapped)
underlying type must equal the substituted type, and an existential
substituted type must carry a Self-conformance witness. -/
def verifyReqCheck (env : Env) (m : SubstitutionMap) (req : Requirement)
    (conformance : ConformanceRef) : Bool :=
  let substType := env.substTypeViaMap m req.firstType
  if substType.isTypeParameter || substType.isArchetype ||
      substType.isTypeVariableOrMember || substType.isUnresolvedType ||
      substType.hasError then
    true
  else
    match conformance with
    | .invalid => true
    | .concrete concreteConf =>
      if substType.isUnboundGenericType then
        true
      else if substType = remapConformanceTy env concreteConf substType then
        if substType.isExistential then concreteConf.isSelfConformance else true
      else
        false
    | _ => false

/-- The requirement walk of `verify`, pairing each conformance requirement
with the stored conformance at its ordinal position. -/
def verifyLoop (env : Env) (m : SubstitutionMap) :
    List Requirement → List ConformanceRef → Bool
  | [], _ => true
  | req :: rest, conformances =>
    if req.isConformanceReq then
      verifyReqCheck env m req (conformances.getD 0 .invalid) &&
        verifyLoop env m rest (conformances.drop 1)
    else
      verifyLoop env m rest conformances

/-- The `verify` validation pass as a Boolean oracle: `true` iff no
assertion fires on any conformance requirement. -/
def verifyOK (env : Env) (m : SubstitutionMap) : Bool :=
  match m.genericSig with
  | none => true
  | some sig => verifyLoop env m sig.requirements m.getConformances

/-- Modelled from the spec: `PackType::getSingletonPackExpansion`
(external) wraps a pack parameter in a singleton pack expansion. -/
def getSingletonPackExpansion (t : Ty) : Ty :=
  .pack [.packExpansion t]

/-- The conformance test of `isIdentity`: abstract conformances pass, as
do pack conformances whose pattern conformances are exactly one abstract
conformance. -/
def identityConformanceOK : ConformanceRef → Bool
  | .abstract _ => true
  | .pack packConf =>
    match packConf.patternConformances with
    | [c] => c.isAbstract
    | _ => false
  | _ => false

/-- The comparison value used by `isIdentity` for one parameter: pack
parameters are wrapped in a singleton pack expansion first. -/
def identityWrappedParam (gp : GenericParam) : Ty :=
  if gp.isParameterPack then getSingletonPackExpansion gp.asType else gp.asType

/-- The `forEachParam` walk of `isIdentity`: each parameter occurrence
consumes one replacement type; only canonical occurrences are compared. -/
def identityParamsLoop : List (GenericParam × Bool) → List Ty → Bool
  | [], _ => true
  | (gp, isCanonical) :: rest, replacements =>
    (!isCanonical || (identityWrappedParam gp = replacements.getD 0 .nullTy)) &&
      identityParamsLoop rest (replacements.drop 1)

/-- Identity test (`SubstitutionMap::isIdentity`): empty maps are
identities; otherwise every stored conformance must pass the conformance
test and every canonical parameter occurrence must be replaced by
itself. -/
def SubstitutionMap.isIdentity (m : SubstitutionMap) : Bool :=
  match m.genericSig with
  | none => true
  | some sig =>
    m.getConformances.all identityConformanceOK &&
      identityParamsLoop (sig.genericParams.zip sig.paramIsCanonical)
        m.getReplacementTypes

/-- Spec-side statement for the fast path: position `i` is the ordinal of
the first conformance requirement of the signature pairing dependent type
`t` with protocol `p`, among the signature's conformance requirements in
their fixed declared order. -/
def IsFirstDirectConformance (sig : GenericSignature) (t : Ty)
    (p : ProtocolDecl) (i : Nat) : Prop :=
  (∃ r, (conformanceRequirements sig)[i]? = some r ∧
    r.firstType = t ∧ r.protocolDecl = p) ∧
  ∀ j r, j < i → (conformanceRequirements sig)[j]? = some r →
    ¬(r.firstType = t ∧ r.protocolDecl = p)

/-- Spec-side statement of the abstract-conformance continuation, in the
spec's own order of conditions: substitute the queried type fully; an
error marker yields an abstract placeholder; a substituted type that is
not a bare type parameter, not an existential, and either not an archetype
or an archetype with a superclass bound delegates to the global oracle;
every other case yields an abstract placeholder. -/
def abstractContinuationSpec (env : Env) (m : SubstitutionMap) (type : Ty)
    (proto : ProtocolDecl) : ConformanceRef :=
  let substType := env.substTypeViaMap m type
  if substType.hasError then
    .abstract proto
  else if !substType.isTypeParameter && !substType.isExistential &&
      (!substType.isArchetype || substType.archetypeSuperclass.isSome) then
    env.globalLookupConformance substType proto
  else
    .abstract proto

/-- Spec-side statement of the conformances accepted by `isIdentity`:
abstract, or a pack whose pattern conformances consist of exactly one
abstract conformance. -/
def IdentityConformanceProp (c : ConformanceRef) : Prop :=
  (∃ q, c = .abstract q) ∨
  (∃ packConf c0 q, c = .pack packConf ∧
    packConf.patternConformances = [c0] ∧ c0 = .abstract q)

/-- A trivial environment instance: the oracle and the missing-conformance
constructor answer invalid, nothing is in flight, and the type primitives
are identities. -/
def envTriv : Env :=
  ⟨fun _ _ => .invalid, fun _ _ => .invalid, fun _ => false,
    fun _ t => t, fun _ t => t, fun _ t => t⟩

/-- An environment whose in-flight tracker reports every resolution as
active. -/
def envActive : Env :=
  ⟨fun _ _ => .invalid, fun _ _ => .invalid, fun _ => true,
    fun _ t => t, fun _ t => t, fun _ t => t⟩

/-- A sample protocol. -/
def protoW : ProtocolDecl := ⟨0, false⟩

/-- The generic parameter `T` at depth 0, index 0. -/
def gpT : GenericParam := ⟨0, 0, false⟩

/-- The generic parameter type `T`. -/
def tT : Ty := .genericParam 0 0 false

/-- A one-parameter signature `<T where T : P>`. -/
def sigW : GenericSignature :=
  ⟨[gpT], [true], [⟨.conformance, tT, protoW⟩], fun _ _ => true, fun _ _ => []⟩

/-- A map over `sigW` replacing `T` by a nominal type, with an abstract
stored conformance. -/
def mW : SubstitutionMap :=
  ⟨some sigW, [.nominal 1 []], [.abstract protoW]⟩

/-- The identity map over `sigW`. -/
def mId : SubstitutionMap :=
  ⟨some sigW, [tT], [.abstract protoW]⟩

/-- A concrete conformance whose root normal conformance (id 7) has not
computed its associated conformances. -/
def ccW : ConcreteConformance :=
  .mk (.nominal 2 []) 0 false 7 false 0 []

/-- A one-parameter signature `<T>` with no requirements. -/
def sigNoReq : GenericSignature :=
  ⟨[gpT], [true], [], fun _ _ => true, fun _ _ => []⟩

/-- A one-parameter signature whose parameter is a parameter pack. -/
def sigPack : GenericSignature :=
  ⟨[⟨0, 0, true⟩], [true], [], fun _ _ => true, fun _ _ => []⟩

/-- The identity in-flight capability. -/
def ifsId : InFlightSubstitution :=
  ⟨fun t => t, fun _ _ p _ => .abstract p, false, id,
    fun conformance _ => conformance, fun _ t => t⟩

/-- An in-flight capability that replaces every type by a non-pack,
error-free nominal type — violating the pack invariant on any pack
parameter. -/
def ifsBad : InFlightSubstitution :=
  ⟨fun _ => .nominal 0 [], fun _ _ p _ => .abstract p, false, id,
    fun conformance _ => conformance, fun _ t => t⟩

/-- An environment substituting `T` by a fully concrete nominal type. -/
def envC9a : Env :=
  ⟨fun _ _ => .invalid, fun _ _ => .invalid, fun _ => false,
    fun _ t => match t with
      | .genericParam 0 0 false => .nominal 5 []
      | x => x,
    fun _ t => t, fun _ t => t⟩

/-- A map over `sigW` whose stored conformance is invalid although the
substituted dependent type is fully concrete under `envC9a`. -/
def mC9a : SubstitutionMap :=
  ⟨some sigW, [.nominal 5 []], [.invalid]⟩

/-- An environment substituting `T` by an unbound generic type. -/
def envC9b : Env :=
  ⟨fun _ _ => .invalid, fun _ _ => .invalid, fun _ => false,
    fun _ t => match t with
      | .genericParam 0 0 false => .unboundGeneric 7
      | x => x,
    fun _ t => t, fun _ t => t⟩

/-- A concrete conformance whose underlying type differs from the
substituted dependent type of `mC9b`. -/
def ccB : ConcreteConformance :=
  .mk (.nominal 9 []) 0 false 0 true 0 []

/-- A map over `sigW` whose substituted dependent type under `envC9b` is
an unbound generic type that differs from the stored witness's type. -/
def mC9b : SubstitutionMap :=
  ⟨some sigW, [.unboundGeneric 7], [.concrete ccB]⟩

/-- A concrete conformance whose underlying type matches the substituted
dependent type of `mC9c` under `envC9a`. -/
def ccGood : ConcreteConformance :=
  .mk (.nominal 5 []) 0 false 0 true 0 []

/-- A map over `sigW` that passes `verify` with a concrete stored
conformance at a fully concrete position. -/
def mC9c : SubstitutionMap :=
  ⟨some sigW, [.nominal 5 []], [.concrete ccGood]⟩

theorem signatureConformanceIndexAux_of_first (t : Ty) (p : ProtocolDecl) :
    ∀ (reqs : List Requirement) (k i : Nat),
    (∃ r, (reqs.filter Requirement.isConformanceReq)[i]? = some r ∧
      r.firstType = t ∧ r.protocolDecl = p) →
    (∀ j r, j < i → (reqs.filter Requirement.isConformanceReq)[j]? = some r →
      ¬(r.firstType = t ∧ r.protocolDecl = p)) →
    signatureConformanceIndexAux t p reqs k = some (k + i)
  | [], k, i, hex, _ => by simp at hex
  | r0 :: rest, k, i, hex, hmin => by
    by_cases hc : r0.isConformanceReq = true
    · rw [List.filter_cons_of_pos hc] at hex hmin
      by_cases hm : r0.firstType = t ∧ r0.protocolDecl = p
      · have hi0 : i = 0 := by
          by_contra hne
          exact hmin 0 r0 (Nat.pos_of_ne_zero hne) (by simp) hm
        subst hi0
        simp [signatureConformanceIndexAux, hc, hm]
      · obtain ⟨r, hr, hrt, hrp⟩ := hex
        cases i with
        | zero =>
          simp at hr
          exact absurd ⟨hr ▸ hrt, hr ▸ hrp⟩ hm
        | succ i' =>
          have hex' : ∃ r, (rest.filter Requirement.isConformanceReq)[i']? = some r ∧
              r.firstType = t ∧ r.protocolDecl = p :=
            ⟨r, by simpa using hr, hrt, hrp⟩
          have hmin' : ∀ j r, j < i' →
              (rest.filter Requirement.isConformanceReq)[j]? = some r →
              ¬(r.firstType = t ∧ r.protocolDecl = p) := by
            intro j r hj hjr
            exact hmin (j + 1) r (by omega) (by simpa using hjr)
          have hrec := signatureConformanceIndexAux_of_first t p rest (k + 1) i' hex' hmin'
          simp only [signatureConformanceIndexAux, hc, if_true, hm, if_false, hrec]
          congr 1
          omega
    · rw [List.filter_cons_of_neg (by simpa using hc)] at hex hmin
      have hrec := signatureConformanceIndexAux_of_first t p rest k i hex hmin
      simp [signatureConformanceIndexAux, hc, hrec]

theorem lookupConformanceRewrite_of_typeParameter (t : Ty)
    (h : t.isTypeParameter = true) : lookupConformanceRewrite t = t := by
  cases t <;> simp_all [lookupConformanceRewrite, Ty.isTypeParameter]

/-- C1: for a non-empty substitution map, a canonical type-parameter type
`t` and a protocol `p` such that the signature directly states the
conformance requirement `(t, p)` — first at ordinal `i` among the
signature's conformance requirements in their declared order —
`lookupConformance` returns exactly the conformance stored at ordinal
position `i`, by the linear fast-path scan. -/
theorem c1_fast_path_returns_stored (env : Env) (m : SubstitutionMap)
    (sig : GenericSignature) (t : Ty) (p : ProtocolDecl) (i : Nat)
    (hsig : m.genericSig = some sig)
    (htp : t.isTypeParameter = true)
    (hfirst : IsFirstDirectConformance sig t p i) :
    SubstitutionMap.lookupConformance env m t p =
      m.getConformances.getD i .invalid := by
  obtain ⟨gs, reps, confs⟩ := m
  simp only at hsig
  subst hsig
  have hidx := signatureConformanceIndexAux_of_first t p sig.requirements 0 i
    hfirst.1 hfirst.2
  simp [SubstitutionMap.lookupConformance,
    lookupConformanceRewrite_of_typeParameter t htp, htp,
    getSignatureConformance, hidx]

/-- Witness for C1 at a concrete map: the signature `<T where T : P>`
directly states `(T, P)` at ordinal 0, and lookup returns the stored
conformance. -/
theorem c1_fast_path_returns_stored_witness :
    SubstitutionMap.lookupConformance envTriv mW tT protoW =
      mW.getConformances.getD 0 .invalid :=
  c1_fast_path_returns_stored envTriv mW sigW tT protoW 0 rfl rfl
    ⟨⟨⟨.conformance, tT, protoW⟩, rfl, rfl, rfl⟩,
      fun j _ hj _ => absurd hj (Nat.not_lt_zero j)⟩

/-- C2: in the conformance-path walk, an abstract current conformance at a
non-first step terminates the walk with exactly the spec's
abstract-continuation result: the queried type is substituted through the
map; an error marker yields an abstract placeholder; a substituted type
that is not a type parameter, not an existential, and either not an
archetype or an archetype with a superclass bound delegates to the global
oracle; otherwise an abstract placeholder is returned. -/
theorem c2_abstract_continuation (env : Env) (m : SubstitutionMap)
    (sig : GenericSignature) (type : Ty) (proto q : ProtocolDecl)
    (step : Ty × ProtocolDecl) (rest : List (Ty × ProtocolDecl)) :
    walkPath env m sig type proto (.abstract q) (step :: rest) =
      abstractContinuationSpec env m type proto := by
  simp only [walkPath, abstractContinuationSpec]
  cases hE : (env.substTypeViaMap m type).hasError
  · cases hT : (env.substTypeViaMap m type).isTypeParameter <;>
      cases hX : (env.substTypeViaMap m type).isExistential <;>
        cases hA : (env.substTypeViaMap m type).isArchetype <;>
          cases hS : (env.substTypeViaMap m type).archetypeSuperclass.isSome <;>
            simp [hE, hT, hX, hA, hS]
  · simp [hE]

/-- C3: in the conformance-path walk, a concrete current conformance whose
root normal conformance has not computed its associated conformances,
while the in-flight tracker reports that resolution as already active,
terminates immediately with the invalid conformance instead of
recursing. -/
theorem c3_self_reference_invalid (env : Env) (m : SubstitutionMap)
    (sig : GenericSignature) (type : Ty) (proto : ProtocolDecl)
    (cc : ConcreteConformance) (step : Ty × ProtocolDecl)
    (rest : List (Ty × ProtocolDecl))
    (h1 : cc.rootHasComputedAssociatedConformances = false)
    (h2 : env.hasActiveResolveTypeWitnesses cc.rootNormalId = true) :
    walkPath env m sig type proto (.concrete cc) (step :: rest) = .invalid := by
  simp [walkPath, h1, h2]

/-- Witness for C3: a concrete conformance whose root normal conformance
(id 7) is still computing, under a tracker that reports it active. -/
theorem c3_self_reference_invalid_witness :
    walkPath envActive mW sigW tT protoW (.concrete ccW) ((tT, protoW) :: []) =
      .invalid :=
  c3_self_reference_invalid envActive mW sigW tT protoW ccW (tT, protoW) [] rfl rfl

/-- C4: on a non-empty map, `lookupSubstitution` yields no replacement for
non-root archetypes and for archetypes that are neither primary nor pack;
a root primary or pack archetype is first rewritten to its underlying
generic-parameter type; a generic parameter is located in the signature's
parameter list by its `(depth, index)` key, yielding no replacement when
absent and the corresponding entry of the replacement types otherwise. -/
theorem c4_lookup_substitution (m : SubstitutionMap) (sig : GenericSignature)
    (hsig : m.genericSig = some sig) :
    (∀ kind interface sup,
      m.lookupSubstitution (.archetype kind false interface sup) = none) ∧
    (∀ kind interface sup, kind ≠ .primaryKind → kind ≠ .packKind →
      m.lookupSubstitution (.archetype kind true interface sup) = none) ∧
    (∀ kind d i pk sup, kind = .primaryKind ∨ kind = .packKind →
      m.lookupSubstitution (.archetype kind true (.genericParam d i pk) sup) =
        m.lookupSubstitution (.genericParam d i pk)) ∧
    (∀ d i pk, findIndexIn sig.genericParams d i = none →
      m.lookupSubstitution (.genericParam d i pk) = none) ∧
    (∀ d i pk j, findIndexIn sig.genericParams d i = some j →
      m.lookupSubstitution (.genericParam d i pk) =
        some (m.getReplacementTypes.getD j .nullTy)) := by
  obtain ⟨gs, reps, confs⟩ := m
  simp only at hsig
  subst hsig
  refine ⟨?_, ?_, ?_, ?_, ?_⟩
  · intro kind interface sup
    simp [SubstitutionMap.lookupSubstitution]
  · intro kind interface sup h1 h2
    simp [SubstitutionMap.lookupSubstitution, h1, h2]
  · intro kind d i pk sup hk
    rcases hk with rfl | rfl <;>
      simp [SubstitutionMap.lookupSubstitution]
  · intro d i pk h
    simp [SubstitutionMap.lookupSubstitution, h]
  · intro d i pk j h
    simp [SubstitutionMap.lookupSubstitution, h]

/-- Witness for C4 on the concrete map `mW`: each clause instantiated. -/
theorem c4_lookup_substitution_witness :
    SubstitutionMap.lookupSubstitution mW (.archetype .primaryKind false tT none) = none ∧
    SubstitutionMap.lookupSubstitution mW (.archetype .opaqueKind true tT none) = none ∧
    SubstitutionMap.lookupSubstitution mW
        (.archetype .primaryKind true (.genericParam 0 0 false) none) =
      SubstitutionMap.lookupSubstitution mW (.genericParam 0 0 false) ∧
    SubstitutionMap.lookupSubstitution mW (.genericParam 1 0 false) = none ∧
    SubstitutionMap.lookupSubstitution mW (.genericParam 0 0 false) =
      some (mW.getReplacementTypes.getD 0 .nullTy) :=
  ⟨(c4_lookup_substitution mW sigW rfl).1 .primaryKind tT none,
    (c4_lookup_substitution mW sigW rfl).2.1 .opaqueKind tT none
      (by decide) (by decide),
    (c4_lookup_substitution mW sigW rfl).2.2.1 .primaryKind 0 0 false none
      (Or.inl rfl),
    (c4_lookup_substitution mW sigW rfl).2.2.2.1 1 0 false (by decide),
    (c4_lookup_substitution mW sigW rfl).2.2.2.2 0 0 false 0 (by decide)⟩

theorem zip_all_getD {α β : Type} (p : α → β → Bool) (da : α) (db : β) :
    ∀ (as : List α) (bs : List β),
    ((as.zip bs).all fun pr => p pr.1 pr.2) = true →
    ∀ i, i < as.length → i < bs.length →
    p (as.getD i da) (bs.getD i db) = true
  | [], _, _, i, hi, _ => absurd hi (by simp)
  | _ :: _, [], _, i, _, hi2 => absurd hi2 (by simp)
  | a :: as, b :: bs, h, 0, _, _ => by simp_all
  | a :: as, b :: bs, h, i + 1, hi, hi2 => by
    simp only [List.zip_cons_cons, List.all_cons, Bool.and_eq_true] at h
    simpa using zip_all_getD p da db as bs h.2 i (by simpa using hi)
      (by simpa using hi2)

theorem getD_map_lt {α β : Type} (f : α → β) (d : α) (d' : β) :
    ∀ (l : List α) (i : Nat), i < l.length →
    (l.map f).getD i d' = f (l.getD i d)
  | [], i, hi => absurd hi (by simp)
  | a :: l, 0, _ => by simp
  | a :: l, i + 1, hi => by
    simpa using getD_map_lt f d d' l i (by simpa using hi)

theorem make_some_elim (sig : GenericSignature) (reps : List Ty)
    (confs : List ConformanceRef) (m : SubstitutionMap)
    (h : SubstitutionMap.make sig reps confs = some m) :
    m = ⟨some sig, reps, confs⟩ ∧ reps.length = sig.genericParams.length ∧
      confs.length = sig.numConformanceRequirements := by
  simp only [SubstitutionMap.make] at h
  split at h
  · cases h
    exact ⟨rfl, by assumption⟩
  · cases h

theorem get_some_elim (sig : GenericSignature) (IFS : InFlightSubstitution)
    (m : SubstitutionMap) (h : SubstitutionMap.get (some sig) IFS = some m) :
    m.genericSig = some sig ∧
    m.replacementTypes = sig.genericParams.map (fun gp => IFS.substTy gp.asType) ∧
    ((sig.genericParams.zip
        (sig.genericParams.map (fun gp => IFS.substTy gp.asType))).all
      fun pr => packCompatible pr.1 pr.2) = true := by
  simp only [SubstitutionMap.get] at h
  split at h
  · obtain ⟨rfl, _, _⟩ := make_some_elim _ _ _ _ h
    exact ⟨rfl, rfl, by assumption⟩
  · cases h

theorem substConformancesLoop_lengths (m : SubstitutionMap)
    (IFS : InFlightSubstitution) :
    ∀ (reqs : List Requirement) (olds news : List ConformanceRef),
    substConformancesLoop m IFS reqs olds = some news →
    olds.length = (reqs.filter Requirement.isConformanceReq).length ∧
    news.length = (reqs.filter Requirement.isConformanceReq).length
  | [], olds, news, h => by
    simp only [substConformancesLoop] at h
    split at h
    · cases h
      simp_all [List.isEmpty_iff]
    · cases h
  | r :: rest, olds, news, h => by
    by_cases hc : r.isConformanceReq = true
    · simp only [substConformancesLoop, hc, if_true] at h
      match olds, h with
      | c :: olds', h =>
        rw [Option.map_eq_some'] at h
        obtain ⟨tail, htail, rfl⟩ := h
        have ih := substConformancesLoop_lengths m IFS rest olds' tail htail
        simp [List.filter_cons_of_pos hc, ih.1, ih.2]
    · simp only [substConformancesLoop, hc, Bool.false_eq_true, if_false] at h
      have ih := substConformancesLoop_lengths m IFS rest olds news h
      simp [List.filter_cons_of_neg (by simpa using hc), ih.1, ih.2]

theorem subst_some_elim (m : SubstitutionMap) (sig : GenericSignature)
    (IFS : InFlightSubstitution) (m' : SubstitutionMap)
    (hsig : m.genericSig = some sig)
    (h : SubstitutionMap.subst m IFS = some m') :
    m'.genericSig = some sig ∧
    m'.replacementTypes = m.replacementTypes.map IFS.substTy ∧
    ((m.replacementTypes.zip (m.replacementTypes.map IFS.substTy)).all
      fun pr => pr.1.isPackType == pr.2.isPackType) = true ∧
    m'.replacementTypes.length = sig.genericParams.length ∧
    m'.conformances.length = sig.numConformanceRequirements ∧
    m.conformances.length = sig.numConformanceRequirements := by
  obtain ⟨gs, reps, confs⟩ := m
  simp only at hsig
  subst hsig
  simp only [SubstitutionMap.subst, SubstitutionMap.getReplacementTypes,
    SubstitutionMap.getConformances] at h
  split at h
  · rename_i hgate
    cases hl : substConformancesLoop ⟨some sig, reps, confs⟩ IFS
        sig.requirements confs with
    | none => rw [hl] at h; cases h
    | some newConfs =>
      rw [hl] at h
      obtain ⟨rfl, hlen1, hlen2⟩ := make_some_elim _ _ _ _ h
      have hloop := substConformancesLoop_lengths _ _ _ _ _ hl
      exact ⟨rfl, rfl, hgate, hlen1, hlen2, hloop.1⟩
  · cases h

/-- C5: (a) every map built by the shared `get(signature, capability)`
algorithm satisfies, at each parameter position, the pack invariant —
the replacement is a pack type iff the parameter is a parameter pack,
unless the replacement is null or contains an error; (b) a capability
that assigns a pack-incompatible replacement to some parameter makes the
construction fault; (c) re-substituting an existing map whose replacements
satisfy the strict invariant through any capability preserves the
invariant position by position. -/
theorem c5_pack_invariant :
    (∀ (sig : GenericSignature) (IFS : InFlightSubstitution)
        (m : SubstitutionMap),
      SubstitutionMap.get (some sig) IFS = some m →
      ∀ i, i < sig.genericParams.length →
        packCompatible (sig.genericParams.getD i ⟨0, 0, false⟩)
          (m.replacementTypes.getD i .nullTy) = true) ∧
    (∀ (sig : GenericSignature) (IFS : InFlightSubstitution) (i : Nat),
      i < sig.genericParams.length →
      packCompatible (sig.genericParams.getD i ⟨0, 0, false⟩)
        (IFS.substTy (sig.genericParams.getD i ⟨0, 0, false⟩).asType) = false →
      SubstitutionMap.get (some sig) IFS = none) ∧
    (∀ (m : SubstitutionMap) (sig : GenericSignature)
        (IFS : InFlightSubstitution) (m' : SubstitutionMap),
      m.genericSig = some sig →
      SubstitutionMap.subst m IFS = some m' →
      (∀ i, i < sig.genericParams.length →
        (sig.genericParams.getD i ⟨0, 0, false⟩).isParameterPack =
          (m.replacementTypes.getD i .nullTy).isPackType) →
      ∀ i, i < sig.genericParams.length →
        (sig.genericParams.getD i ⟨0, 0, false⟩).isParameterPack =
          (m'.replacementTypes.getD i .nullTy).isPackType) := by
  refine ⟨?_, ?_, ?_⟩
  · intro sig IFS m h i hi
    obtain ⟨-, hreps, hgate⟩ := get_some_elim sig IFS m h
    have := zip_all_getD (fun gp r => packCompatible gp r) ⟨0, 0, false⟩ .nullTy
      sig.genericParams (sig.genericParams.map (fun gp => IFS.substTy gp.asType))
      hgate i hi (by simpa using hi)
    rwa [hreps]
  · intro sig IFS i hi hbad
    simp only [SubstitutionMap.get]
    rw [if_neg]
    intro hgate
    have hmem := zip_all_getD (fun gp r => packCompatible gp r) ⟨0, 0, false⟩
      .nullTy sig.genericParams
      (sig.genericParams.map (fun gp => IFS.substTy gp.asType))
      hgate i hi (by simpa using hi)
    have hgood : packCompatible (sig.genericParams.getD i ⟨0, 0, false⟩)
        ((sig.genericParams.map (fun gp => IFS.substTy gp.asType)).getD i
          .nullTy) = true := hmem
    rw [getD_map_lt (fun gp => IFS.substTy gp.asType) ⟨0, 0, false⟩ .nullTy
      sig.genericParams i hi] at hgood
    rw [hgood] at hbad
    cases hbad
  · intro m sig IFS m' hsig hsub hinv i hi
    obtain ⟨-, hreps, hgate, hlen1, -, -⟩ := subst_some_elim m sig IFS m' hsig hsub
    have hlen0 : m.replacementTypes.length = sig.genericParams.length := by
      have : m'.replacementTypes.length = m.replacementTypes.length := by
        rw [hreps, List.length_map]
      omega
    have hstep := zip_all_getD (fun a b => a.isPackType == b.isPackType)
      .nullTy .nullTy m.replacementTypes (m.replacementTypes.map IFS.substTy)
      hgate i (by omega) (by simp; omega)
    rw [getD_map_lt IFS.substTy .nullTy .nullTy m.replacementTypes i (by omega)]
      at hstep
    have hstep' : (m.replacementTypes.getD i .nullTy).isPackType =
        (IFS.substTy (m.replacementTypes.getD i .nullTy)).isPackType := by
      simpa using hstep
    rw [hreps, getD_map_lt IFS.substTy .nullTy .nullTy m.replacementTypes i
      (by omega)]
    rw [hinv i hi, hstep']

/-- Witness for C5: a successful construction satisfying the invariant, a
faulting construction assigning a non-pack replacement to a pack
parameter, and a re-substitution preserving the invariant. -/
theorem c5_pack_invariant_witness :
    packCompatible (sigNoReq.genericParams.getD 0 ⟨0, 0, false⟩)
      ((SubstitutionMap.mk (some sigNoReq) [tT] []).replacementTypes.getD 0
        .nullTy) = true ∧
    SubstitutionMap.get (some sigPack) ifsBad = none ∧
    (sigW.genericParams.getD 0 ⟨0, 0, false⟩).isParameterPack =
      ((SubstitutionMap.mk (some sigW) [.nominal 1 []]
        [.abstract protoW]).replacementTypes.getD 0 .nullTy).isPackType :=
  ⟨c5_pack_invariant.1 sigNoReq ifsId ⟨some sigNoReq, [tT], []⟩ rfl 0
      (by decide),
    c5_pack_invariant.2.1 sigPack ifsBad 0 (by decide) (by decide),
    c5_pack_invariant.2.2 mW sigW ifsId
      ⟨some sigW, [.nominal 1 []], [.abstract protoW]⟩ rfl rfl
      (by decide) 0 (by decide)⟩

/-- C7: constructing a map from a signature and aligned replacement and
conformance arrays satisfying the size and pack-ness invariants, and then
reading the two accessors, yields exactly the input sequences in the same
order. -/
theorem c7_round_trip (sig : GenericSignature) (types : List Ty)
    (confs : List ConformanceRef)
    (h1 : types.length = sig.genericParams.length)
    (h2 : confs.length = sig.numConformanceRequirements)
    (_h3 : ((sig.genericParams.zip types).all
      fun pr => packCompatible pr.1 pr.2) = true) :
    (SubstitutionMap.make sig types confs).map
      SubstitutionMap.getReplacementTypes = some types ∧
    (SubstitutionMap.make sig types confs).map
      SubstitutionMap.getConformances = some confs := by
  simp [SubstitutionMap.make, h1, h2, SubstitutionMap.getReplacementTypes,
    SubstitutionMap.getConformances]

/-- Witness for C7 at a concrete signature and arrays. -/
theorem c7_round_trip_witness :
    (SubstitutionMap.make sigW [.nominal 1 []] [.abstract protoW]).map
      SubstitutionMap.getReplacementTypes = some [.nominal 1 []] ∧
    (SubstitutionMap.make sigW [.nominal 1 []] [.abstract protoW]).map
      SubstitutionMap.getConformances = some [.abstract protoW] :=
  c7_round_trip sigW [.nominal 1 []] [.abstract protoW] (by decide) (by decide)
    (by decide)

/-- C8: every replacement computed by `combineSubstitutionMaps` with an
`AtDepth` boundary routes a parameter of depth `< d` through the first map
unchanged, and a parameter of depth `≥ d` through the second map after
replacing its depth by `depth + d2 - d` while keeping its index and
pack-ness. -/
theorem c8_combine_at_depth (env : Env) (M1 M2 : SubstitutionMap)
    (d d2 : Nat) (sig : GenericSignature) (m : SubstitutionMap)
    (h : SubstitutionMap.combineSubstitutionMaps env M1 M2 .atDepth d d2 sig =
      some m) :
    ∀ i, i < sig.genericParams.length →
    m.replacementTypes.getD i .nullTy =
      (if (sig.genericParams.getD i ⟨0, 0, false⟩).depth < d then
        env.substTypeViaMap M1 (sig.genericParams.getD i ⟨0, 0, false⟩).asType
      else
        env.substTypeViaMap M2 (Ty.genericParam
          ((sig.genericParams.getD i ⟨0, 0, false⟩).depth + d2 - d)
          (sig.genericParams.getD i ⟨0, 0, false⟩).index
          (sig.genericParams.getD i ⟨0, 0, false⟩).isParameterPack)) := by
  intro i hi
  simp only [SubstitutionMap.combineSubstitutionMaps] at h
  obtain ⟨-, hreps, -⟩ := get_some_elim sig _ m h
  have hquery : m.replacementTypes.getD i .nullTy =
      combineTypeQuery env M1 M2 .atDepth d d2
        (sig.genericParams.getD i ⟨0, 0, false⟩).asType := by
    rw [hreps]
    exact getD_map_lt
      (fun gp => combineTypeQuery env M1 M2 .atDepth d d2 gp.asType)
      ⟨0, 0, false⟩ .nullTy sig.genericParams i hi
  rw [hquery]
  simp only [combineTypeQuery, replaceGenericParameter, GenericParam.asType]
  by_cases hd : (sig.genericParams.getD i ⟨0, 0, false⟩).depth < d
  · rw [if_pos hd, if_pos hd]
    simp
  · rw [if_neg hd, if_neg hd]
    simp

/-- Witness for C8 at a concrete combination whose single parameter lies
at the boundary depth. -/
theorem c8_combine_at_depth_witness :
    (SubstitutionMap.mk (some sigNoReq) [tT] []).replacementTypes.getD 0
        .nullTy =
      (if (sigNoReq.genericParams.getD 0 ⟨0, 0, false⟩).depth < 0 then
        envTriv.substTypeViaMap mW
          (sigNoReq.genericParams.getD 0 ⟨0, 0, false⟩).asType
      else
        envTriv.substTypeViaMap mW (Ty.genericParam
          ((sigNoReq.genericParams.getD 0 ⟨0, 0, false⟩).depth + 0 - 0)
          (sigNoReq.genericParams.getD 0 ⟨0, 0, false⟩).index
          (sigNoReq.genericParams.getD 0 ⟨0, 0, false⟩).isParameterPack)) :=
  c8_combine_at_depth envTriv mW mW 0 0 sigNoReq ⟨some sigNoReq, [tT], []⟩
    rfl 0 (by decide)

/-- C10: re-substituting a non-empty map through any in-flight capability
yields a map attached to the same generic signature, whose replacement and
conformance sequences have exactly the lengths of the original's. -/
theorem c10_subst_frame (m : SubstitutionMap) (sig : GenericSignature)
    (IFS : InFlightSubstitution) (m' : SubstitutionMap)
    (hsig : m.genericSig = some sig)
    (h : SubstitutionMap.subst m IFS = some m') :
    m'.genericSig = m.genericSig ∧
    m'.replacementTypes.length = m.replacementTypes.length ∧
    m'.conformances.length = m.conformances.length := by
  obtain ⟨hg, hreps, -, -, hc1, hc2⟩ := subst_some_elim m sig IFS m' hsig h
  refine ⟨by rw [hg, hsig], by rw [hreps, List.length_map], by rw [hc1, hc2]⟩

/-- Witness for C10: a concrete re-substitution through the identity
capability. -/
theorem c10_subst_frame_witness :
    (SubstitutionMap.mk (some sigW) [.nominal 1 []]
        [.abstract protoW]).genericSig = mW.genericSig ∧
    (SubstitutionMap.mk (some sigW) [.nominal 1 []]
        [.abstract protoW]).replacementTypes.length =
      mW.replacementTypes.length ∧
    (SubstitutionMap.mk (some sigW) [.nominal 1 []]
        [.abstract protoW]).conformances.length = mW.conformances.length :=
  c10_subst_frame mW sigW ifsId
    ⟨some sigW, [.nominal 1 []], [.abstract protoW]⟩ rfl rfl

theorem identityConformanceOK_iff (c : ConformanceRef) :
    identityConformanceOK c = true ↔ IdentityConformanceProp c := by
  cases c with
  | invalid =>
    simp [identityConformanceOK, IdentityConformanceProp]
  | abstract q =>
    simp only [identityConformanceOK, IdentityConformanceProp]
    exact ⟨fun _ => Or.inl ⟨q, rfl⟩, fun _ => trivial⟩
  | concrete cc =>
    simp [identityConformanceOK, IdentityConformanceProp]
  | pack pc =>
    simp only [identityConformanceOK, IdentityConformanceProp]
    constructor
    · intro h
      split at h
      · rename_i c0 hp
        cases c0 with
        | abstract q => exact Or.inr ⟨pc, .abstract q, q, rfl, hp, rfl⟩
        | invalid => cases h
        | concrete cc => cases h
        | pack pc2 => cases h
      · cases h
    · rintro (⟨q, hq⟩ | ⟨pc2, c0, q, hpc, hp, rfl⟩)
      · cases hq
      · cases hpc
        rw [hp]
        rfl

theorem identityParamsLoop_iff :
    ∀ (ps : List GenericParam) (flags : List Bool) (reps : List Ty),
    flags.length = ps.length → reps.length = ps.length →
    (identityParamsLoop (ps.zip flags) reps = true ↔
      ∀ i, i < ps.length → flags.getD i false = true →
        identityWrappedParam (ps.getD i ⟨0, 0, false⟩) = reps.getD i .nullTy)
  | [], flags, reps, h1, h2 => by
    simp [identityParamsLoop]
  | p :: ps, flags, reps, h1, h2 => by
    cases flags with
    | nil => simp at h1
    | cons f flags =>
      cases reps with
      | nil => simp at h2
      | cons r reps =>
        have ih := identityParamsLoop_iff ps flags reps (by simpa using h1)
          (by simpa using h2)
        have ih2 : (identityParamsLoop (List.zipWith Prod.mk ps flags) reps =
            true) ↔
            ∀ i, i < ps.length → flags.getD i false = true →
              identityWrappedParam (ps.getD i ⟨0, 0, false⟩) =
                reps.getD i .nullTy := ih
        simp only [List.zip_cons_cons, identityParamsLoop, Bool.and_eq_true,
          List.drop_succ_cons, List.drop_zero, Bool.or_eq_true,
          Bool.not_eq_eq_eq_not, Bool.not_true, decide_eq_true_eq]
        rw [ih2]
        constructor
        · intro hb
          obtain ⟨hhead, htail⟩ := hb
          intro i hi hf
          cases i with
          | zero =>
            simp only [List.getD_cons_zero] at hf ⊢
            rcases hhead with hf' | he
            · rw [hf] at hf'
              exact Bool.noConfusion hf'
            · simpa using he
          | succ i' =>
            simp only [List.getD_cons_succ]
            exact htail i' (by simpa using hi) (by simpa using hf)
        · intro hall
          constructor
          · cases hf : f with
            | false => exact Or.inl rfl
            | true =>
              refine Or.inr ?_
              have hz := hall 0 (by simp) (by simp [hf])
              simpa using hz
          · intro i' hi' hf'
            have hs := hall (i' + 1) (by simpa using hi') (by simpa using hf')
            simpa using hs

/-- C6: a non-empty map (with aligned sequences) is an identity exactly
when every stored conformance is abstract or a pack whose pattern
conformances are exactly one abstract conformance, and every canonical
generic parameter occurrence is replaced by itself, pack parameters being
wrapped in a singleton pack expansion before comparison and non-canonical
occurrences being skipped. -/
theorem c6_is_identity (m : SubstitutionMap) (sig : GenericSignature)
    (hsig : m.genericSig = some sig)
    (h1 : sig.paramIsCanonical.length = sig.genericParams.length)
    (h2 : m.replacementTypes.length = sig.genericParams.length) :
    m.isIdentity = true ↔
      ((∀ c ∈ m.getConformances, IdentityConformanceProp c) ∧
        ∀ i, i < sig.genericParams.length →
          sig.paramIsCanonical.getD i false = true →
          identityWrappedParam (sig.genericParams.getD i ⟨0, 0, false⟩) =
            m.replacementTypes.getD i .nullTy) := by
  obtain ⟨gs, reps, confs⟩ := m
  simp only at hsig h2
  subst hsig
  simp only [SubstitutionMap.isIdentity, SubstitutionMap.getConformances,
    SubstitutionMap.getReplacementTypes, Bool.and_eq_true, List.all_eq_true]
  rw [identityParamsLoop_iff sig.genericParams sig.paramIsCanonical reps h1 h2]
  constructor
  · intro ⟨ha, hb⟩
    exact ⟨fun c hc => (identityConformanceOK_iff c).mp (ha c hc), hb⟩
  · intro ⟨ha, hb⟩
    exact ⟨fun c hc => (identityConformanceOK_iff c).mpr (ha c hc), hb⟩

/-- Witness for C6: the identity map over `<T where T : P>` is an
identity. -/
theorem c6_is_identity_witness : SubstitutionMap.isIdentity mId = true :=
  (c6_is_identity mId sigW rfl rfl rfl).mpr
    ⟨by
      intro c hc
      simp only [mId, SubstitutionMap.getConformances, List.mem_singleton] at hc
      subst hc
      exact Or.inl ⟨protoW, rfl⟩,
      by
      intro i hi hf
      match i, hi with
      | 0, _ => rfl⟩

theorem getD_drop_one {α : Type} (l : List α) (i : Nat) (d : α) :
    (l.drop 1).getD i d = l.getD (i + 1) d := by
  cases l <;> simp [List.getD]

theorem verifyLoop_getD (env : Env) (m : SubstitutionMap) :
    ∀ (reqs : List Requirement) (confs : List ConformanceRef),
    verifyLoop env m reqs confs = true →
    ∀ i r, (reqs.filter Requirement.isConformanceReq)[i]? = some r →
      verifyReqCheck env m r (confs.getD i .invalid) = true
  | [], confs, h, i, r, hr => by simp at hr
  | req :: rest, confs, h, i, r, hr => by
    by_cases hc : req.isConformanceReq = true
    · rw [List.filter_cons_of_pos hc] at hr
      simp only [verifyLoop, hc, if_true, Bool.and_eq_true] at h
      cases i with
      | zero =>
        simp only [List.getElem?_cons_zero, Option.some_inj] at hr
        subst hr
        exact h.1
      | succ i' =>
        have ih := verifyLoop_getD env m rest (confs.drop 1) h.2 i' r
          (by simpa using hr)
        rwa [getD_drop_one] at ih
    · rw [List.filter_cons_of_neg (by simpa using hc)] at hr
      simp only [verifyLoop, hc, Bool.false_eq_true, if_false] at h
      exact verifyLoop_getD env m rest confs h i r hr

/-- C9 counterexample: two concrete non-empty maps on which `verify`
passes although the claim's asserted property fails.  First, a stored
conformance that is invalid at a position whose substituted dependent
type is fully concrete is silently skipped, so `verify` does not assert
that the stored conformance is concrete.  Second, when the substituted
type is an unbound generic type, `verify` does not assert that the
witness's underlying type equals the substituted type even though the
stored conformance is concrete and the two types differ. -/
theorem c9_verify_claim_counterexample :
    (verifyOK envC9a mC9a = true ∧
      (envC9a.substTypeViaMap mC9a tT).isTypeParameter = false ∧
      (envC9a.substTypeViaMap mC9a tT).isArchetype = false ∧
      (envC9a.substTypeViaMap mC9a tT).isTypeVariableOrMember = false ∧
      (envC9a.substTypeViaMap mC9a tT).isUnresolvedType = false ∧
      (envC9a.substTypeViaMap mC9a tT).hasError = false ∧
      (mC9a.getConformances.getD 0 .invalid).isConcrete = false) ∧
    (verifyOK envC9b mC9b = true ∧
      (envC9b.substTypeViaMap mC9b tT).isTypeParameter = false ∧
      (envC9b.substTypeViaMap mC9b tT).isArchetype = false ∧
      (envC9b.substTypeViaMap mC9b tT).isTypeVariableOrMember = false ∧
      (envC9b.substTypeViaMap mC9b tT).isUnresolvedType = false ∧
      (envC9b.substTypeViaMap mC9b tT).hasError = false ∧
      mC9b.getConformances.getD 0 .invalid = .concrete ccB ∧
      envC9b.substTypeViaMap mC9b tT ≠
        remapConformanceTy envC9b ccB (envC9b.substTypeViaMap mC9b tT)) :=
  ⟨⟨rfl, rfl, rfl, rfl, rfl, rfl, rfl⟩,
    ⟨rfl, rfl, rfl, rfl, rfl, rfl, rfl, by decide⟩⟩

/-- C9 (amended): for every non-empty map, `verify` passes only if, for
every conformance requirement whose substituted dependent type is fully
concrete (not a type parameter, archetype, type variable or member,
unresolved, or containing an error) and whose stored conformance is not
invalid, the stored conformance is concrete, and — unless the substituted
type is an unbound generic type — the concrete witness's underlying type
(after the context remap when it still mentions type parameters but the
substituted type does not) equals the substituted type and an existential
substituted type carries a Self-conformance witness. -/
theorem c9_verify_asserts (env : Env) (m : SubstitutionMap)
    (sig : GenericSignature) (hsig : m.genericSig = some sig)
    (hver : verifyOK env m = true) :
    ∀ i r, (conformanceRequirements sig)[i]? = some r →
    (env.substTypeViaMap m r.firstType).isTypeParameter = false →
    (env.substTypeViaMap m r.firstType).isArchetype = false →
    (env.substTypeViaMap m r.firstType).isTypeVariableOrMember = false →
    (env.substTypeViaMap m r.firstType).isUnresolvedType = false →
    (env.substTypeViaMap m r.firstType).hasError = false →
    m.getConformances.getD i .invalid ≠ .invalid →
    (m.getConformances.getD i .invalid).isConcrete = true ∧
    (∀ cc, m.getConformances.getD i .invalid = .concrete cc →
      (env.substTypeViaMap m r.firstType).isUnboundGenericType = false →
      env.substTypeViaMap m r.firstType =
        remapConformanceTy env cc (env.substTypeViaMap m r.firstType) ∧
      ((env.substTypeViaMap m r.firstType).isExistential = true →
        cc.isSelfConformance = true)) := by
  intro i r hr hp1 hp2 hp3 hp4 hp5 hne
  have hloop : verifyLoop env m sig.requirements m.getConformances = true := by
    obtain ⟨gs, reps, confs⟩ := m
    simp only at hsig
    subst hsig
    simpa [verifyOK] using hver
  have hcheck := verifyLoop_getD env m sig.requirements m.getConformances
    hloop i r hr
  simp only [verifyReqCheck, hp1, hp2, hp3, hp4, hp5, Bool.or_self,
    Bool.or_false, Bool.false_eq_true, if_false] at hcheck
  cases hconf : m.getConformances.getD i .invalid with
  | invalid => exact absurd hconf hne
  | abstract q => rw [hconf] at hcheck; cases hcheck
  | pack pc => rw [hconf] at hcheck; cases hcheck
  | concrete cc0 =>
    rw [hconf] at hcheck
    refine ⟨rfl, ?_⟩
    intro cc hcc hub
    have hcc0 : cc0 = cc := by
      injection hcc with h
    subst hcc0
    simp only [hub, Bool.false_eq_true, if_false] at hcheck
    split at hcheck
    · rename_i heq
      refine ⟨heq, ?_⟩
      intro hex
      simpa [hex] using hcheck
    · cases hcheck

/-- Witness for the amended C9 at a concrete map that passes `verify` with
a concrete stored conformance at a fully concrete position. -/
theorem c9_verify_asserts_witness :
    (mC9c.getConformances.getD 0 .invalid).isConcrete = true :=
  (c9_verify_asserts envC9a mC9c sigW rfl rfl 0 ⟨.conformance, tT, protoW⟩
    rfl rfl rfl rfl rfl rfl (fun h => ConformanceRef.noConfusion h)).1

end Swift
